import Mathlib

/-!
# Verification of the `md` markdown note/template generator

A shallow embedding of the Go sources (`main.go`, `config.go`) of the
`md-app` command-line tool, together with proofs of the specified
properties of its string pipeline (sanitization, validation, template
rendering, tag extraction) and of its filesystem-touching operations
(directory bootstrap, template creation, note creation).

Modelling conventions:
* Go strings are modelled as `List Nat` of Unicode code points
  (`Str`); all strings manipulated by the program are ASCII, where
  byte length and rune length agree.
* The impure clock (`time.Now()`, called once per rendering) becomes an
  explicit `DateTime` parameter captured once.
* The filesystem is a pure state (`FS`) of directories and files;
  `os.Mkdir` / `os.WriteFile` are modelled as always succeeding (I/O
  failures are outside the program).  `filepath.Join` is modelled with
  the `/` separator.
* The YAML parser (an external library, out of scope per the spec) is a
  parameter `parse : Str → Option Template` of the operations that
  load templates.
-/

namespace MdApp

/-- Strings as lists of Unicode code points. -/
abbrev Str := List Nat

/-- Convert a Lean string literal into the `Str` model. -/
def toL (s : String) : Str := s.data.map Char.toNat

/-- Models `strings.HasPrefix pat s` (first argument is the prefix). -/
def isPre : Str → Str → Bool
  | [], _ => true
  | _ :: _, [] => false
  | a :: as, b :: bs => a == b && isPre as bs

/-- Models `strings.Contains s pat`: `pat` occurs as a contiguous
substring of `s`. -/
def containsSub : Str → Str → Bool
  | s, pat =>
    match s with
    | [] => isPre pat []
    | _ :: cs => isPre pat s || containsSub cs pat

/-- Models Go `strings.Replace(s, "", rep, -1)`: the replacement is
inserted before every character and at the end. -/
def interleave (rep : Str) : Str → Str
  | [] => rep
  | c :: cs => rep ++ c :: interleave rep cs

/-- Fuel-driven core of `strings.ReplaceAll` for a non-empty pattern
`p :: ps`: scan left to right, replacing each non-overlapping
occurrence of the pattern with `rep`.  One unit of fuel is spent per
character consumed, so `s.length` fuel always suffices. -/
def replaceAllCore : Nat → Nat → Str → Str → Str → Str
  | _, _, _, _, [] => []
  | 0, _, _, _, s => s
  | f + 1, p, ps, rep, c :: cs =>
    if isPre (p :: ps) (c :: cs) then rep ++ replaceAllCore f p ps rep (cs.drop ps.length)
    else c :: replaceAllCore f p ps rep cs

/-- Models Go `strings.ReplaceAll s pat rep`. -/
def replaceAll (s pat rep : Str) : Str :=
  match pat with
  | [] => interleave rep s
  | p :: ps => replaceAllCore s.length p ps rep s

/-- The character class `[A-Za-z0-9_-]` of the sanitizer's regular
expression `[^a-zA-Z0-9_-]` (kept characters). -/
def isFileChar (n : Nat) : Bool :=
  decide (97 ≤ n ∧ n ≤ 122) || decide (65 ≤ n ∧ n ≤ 90) ||
  decide (48 ≤ n ∧ n ≤ 57) || n == 95 || n == 45

/-- The lower-case residue class `[a-z0-9_-]`. -/
def isLowerFileChar (n : Nat) : Bool :=
  decide (97 ≤ n ∧ n ≤ 122) || decide (48 ≤ n ∧ n ≤ 57) || n == 95 || n == 45

/-- Models `strings.ToLower` on the ASCII range.  In
`sanitizeFileName` it is applied after the regular-expression filter,
where only `[A-Za-z0-9_-]` remains, on which Go's Unicode
`strings.ToLower` acts exactly as ASCII lowering. -/
def toLowerGo (n : Nat) : Nat := if 65 ≤ n ∧ n ≤ 90 then n + 32 else n

/-- Embeds `sanitizeFileName` (main.go:341-358): replace spaces (32)
with underscores (95), drop characters outside `[A-Za-z0-9_-]`,
lower-case, and truncate to 255 characters. -/
def sanitizeFileName (name : Str) : Str :=
  let n1 := replaceAll name [32] [95]
  let n2 := n1.filter isFileChar
  let n3 := n2.map toLowerGo
  if 255 < n3.length then n3.take 255 else n3

/-- Models the Go error value `&ValidationError{Field, Msg}`. -/
structure ValidationError where
  field : Str
  msg : Str
deriving DecidableEq

/-- The forbidden file-name characters `/ \ : * ? " < > |` of
`strings.ContainsAny(name, "/\\:*?\"<>|")`. -/
def invalidFileChars : Str := toL "/\\:*?\x22<>|"

/-- The `EmptyName` error value. -/
def emptyNameErr : ValidationError := ⟨toL "file name", toL "cannot be empty"⟩

/-- The `NameTooLong` error value. -/
def nameTooLongErr : ValidationError := ⟨toL "file name", toL "too long (max 255 characters)"⟩

/-- The `InvalidCharacters` error value. -/
def invalidNameErr : ValidationError := ⟨toL "file name", toL "contains invalid characters"⟩

/-- Models `strings.ContainsAny(name, "/\\:*?\"<>|")`. -/
def hasForbiddenChar (name : Str) : Bool :=
  name.any (fun c => invalidFileChars.contains c)

/-- Embeds `validateFileName` (main.go:360-371). -/
def validateFileName (name : Str) : Option ValidationError :=
  if name = [] then some emptyNameErr
  else if 255 < name.length then some nameTooLongErr
  else if hasForbiddenChar name then some invalidNameErr
  else none

/-- The code-point set of Go's `unicode.IsSpace`. -/
def spaceCodes : Str :=
  [9, 10, 11, 12, 13, 32, 0x85, 0xA0, 0x1680,
   0x2000, 0x2001, 0x2002, 0x2003, 0x2004, 0x2005, 0x2006, 0x2007,
   0x2008, 0x2009, 0x200A, 0x2028, 0x2029, 0x202F, 0x205F, 0x3000]

/-- Models `unicode.IsSpace`. -/
def isSpaceGo (n : Nat) : Bool := spaceCodes.contains n

/-- Models `strings.TrimSpace`: drop leading and trailing whitespace. -/
def trimSpace (s : Str) : Str :=
  ((s.dropWhile isSpaceGo).reverse.dropWhile isSpaceGo).reverse

/-- The `EmptyTitle` error value. -/
def emptyTitleErr : ValidationError := ⟨toL "title", toL "cannot be empty"⟩

/-- The `TitleTooLong` error value. -/
def titleTooLongErr : ValidationError := ⟨toL "title", toL "too long (max 100 characters)"⟩

/-- The whitespace-only error value. -/
def onlyWhitespaceErr : ValidationError := ⟨toL "title", toL "cannot be only whitespace"⟩

/-- The empty/whitespace error kind of the spec (`EmptyTitle`): the
code reports it with two messages, for the empty title and for the
whitespace-only title. -/
def isEmptyWhitespaceKind (r : Option ValidationError) : Prop :=
  r = some emptyTitleErr ∨ r = some onlyWhitespaceErr

/-- Embeds `validateTitle` (main.go:373-384).  Note the order of the
checks: empty, then length, then whitespace-only. -/
def validateTitle (title : Str) : Option ValidationError :=
  if title = [] then some emptyTitleErr
  else if 100 < title.length then some titleTooLongErr
  else if trimSpace title = [] then some onlyWhitespaceErr
  else none

/-- Models `strings.Split` with a single-character separator. -/
def splitOnChar (sep : Nat) : Str → List Str
  | [] => [[]]
  | c :: cs =>
    if c == sep then [] :: splitOnChar sep cs
    else
      match splitOnChar sep cs with
      | [] => [[c]]
      | r :: rs => (c :: r) :: rs

/-- Models `strings.TrimPrefix pre s`: drop `pre` when it is a prefix,
otherwise return `s` unchanged. -/
def trimLead (pre s : Str) : Str :=
  if isPre pre s then s.drop pre.length else s

/-- The literal line marker `Tags:` of the tag scanner. -/
def tagsMarker : Str := toL "Tags:"

/-- The tag list parsed from a single `Tags:` line: strip the marker,
split on commas, trim whitespace from each piece. -/
def parseTagsLine (line : Str) : List Str :=
  (splitOnChar 44 (trimLead tagsMarker line)).map trimSpace

/-- The line scan of `extractTags`: first line starting with `Tags:`
wins; no such line yields the empty list. -/
def findTagsLine : List Str → List Str
  | [] => []
  | l :: ls => if isPre tagsMarker l then parseTagsLine l else findTagsLine ls

/-- Embeds `extractTags` (main.go:417-430). -/
def extractTags (content : Str) : List Str :=
  findTagsLine (splitOnChar 10 content)

/-- Embeds the Go struct `Template` (content plus optional tag list,
as parsed from a YAML template file). -/
structure Template where
  Content : Str
  Tags : List Str
deriving DecidableEq

/-- One clock instant, as captured by the single `time.Now()` call of
`generateContent`. -/
structure DateTime where
  year : Nat
  month : Nat
  day : Nat
  hour : Nat
  minute : Nat
  second : Nat
deriving DecidableEq

/-- Decimal digits of a natural number as code points (fuel-driven so
that it reduces by `decide`). -/
def natToDecAux : Nat → Nat → Str
  | 0, _ => []
  | f + 1, n => if n < 10 then [48 + n] else natToDecAux f (n / 10) ++ [48 + n % 10]

/-- Decimal notation of a natural number as code points. -/
def natToDec (n : Nat) : Str := natToDecAux (n + 1) n

/-- Zero-pad a decimal numeral to width `w`. -/
def padDec (w n : Nat) : Str :=
  List.replicate (w - (natToDec n).length) 48 ++ natToDec n

/-- Models `now.Format("2006-01-02")`: `YYYY-MM-DD`, zero-padded. -/
def formatDate (t : DateTime) : Str :=
  padDec 4 t.year ++ 45 :: (padDec 2 t.month ++ 45 :: padDec 2 t.day)

/-- Models `now.Format("15:04:05")`: `HH:MM:SS`, 24-hour, zero-padded. -/
def formatTime (t : DateTime) : Str :=
  padDec 2 t.hour ++ 58 :: (padDec 2 t.minute ++ 58 :: padDec 2 t.second)

/-- The placeholder token `{{TITLE}}`. -/
def titleTok : Str := toL "\x7b\x7bTITLE\x7d\x7d"

/-- The placeholder token `{{DATE}}`. -/
def dateTok : Str := toL "\x7b\x7bDATE\x7d\x7d"

/-- The placeholder token `{{TIME}}`. -/
def timeTok : Str := toL "\x7b\x7bTIME\x7d\x7d"

/-- The placeholder token `{{TAGS}}`. -/
def tagsTok : Str := toL "\x7b\x7bTAGS\x7d\x7d"

/-- Embeds `generateContent` (main.go:317-327): sequential
`strings.ReplaceAll` of the four placeholder tokens, with date and
time formatted from the one `time.Now()` instant `now`, and the tag
list joined by `strings.Join(tags, ", ")`. -/
def generateContent (template : Template) (title : Str) (tags : List Str)
    (now : DateTime) : Str :=
  let content := replaceAll template.Content titleTok title
  let content := replaceAll content dateTok (formatDate now)
  let content := replaceAll content timeTok (formatTime now)
  let tagsString := List.intercalate (toL ", ") tags
  replaceAll content tagsTok tagsString

/-- Rendering as described by the spec (§4.4), for comparison with the
source-derived `generateContent`: verbatim substring replacement of
each recognized placeholder token with its computed value, in the
listed order `{{TITLE}}`, `{{DATE}}`, `{{TIME}}`, `{{TAGS}}`, the
date and time both taken from the single current instant, and the
tags joined with comma-and-space. -/
def specRender (content title : Str) (tags : List Str) (now : DateTime) : Str :=
  replaceAll
    (replaceAll
      (replaceAll
        (replaceAll content titleTok title)
        dateTok (formatDate now))
      timeTok (formatTime now))
    tagsTok (List.intercalate (toL ", ") tags)

/-- The seeded template literal `defaultTemplateContent`
(main.go:25-39). -/
def defaultTemplateContent : Str :=
  toL "content: |\n  # \x7b\x7bTITLE\x7d\x7d\n\n  Date: \x7b\x7bDATE\x7d\x7d\n  Time: \x7b\x7bTIME\x7d\x7d\n  Tags: \x7b\x7bTAGS\x7d\x7d\n\n  ## Introduction\n\n  ## Main Content\n\n  ## Conclusion\n\ntags:\n"

/-- The process configuration (config.go).  `TemplatesDir` is the
`templates_dir` field of `Config`.  `NotesDir` is modelled from the
spec: the latest `config.go` revision (not under `src/`) adds a
`notes_dir` field, optional — "Configuration: { templatesDir: path,
notesDir: path (optional) }"; the empty string means unset, in which
case notes go to the current directory (`main.go` reads
`AppConfig.NotesDir` exactly this way). -/
structure Config where
  TemplatesDir : Str
  NotesDir : Str
deriving DecidableEq

/-- Pure filesystem state: the directories that exist and the files
with their contents (later writes shadow earlier entries). -/
structure FS where
  dirs : List Str
  files : List (Str × Str)
deriving DecidableEq

/-- A path exists when it names a directory or a file (models a
successful `os.Stat`). -/
def pathExists (fs : FS) (p : Str) : Bool :=
  fs.dirs.contains p || fs.files.any (fun kv => kv.1 == p)

/-- Models a successful `os.Mkdir`/`os.MkdirAll`. -/
def mkdir (fs : FS) (d : Str) : FS :=
  { fs with dirs := d :: fs.dirs }

/-- Models a successful `os.WriteFile` (creating or overwriting). -/
def writeFile (fs : FS) (p content : Str) : FS :=
  { fs with files := (p, content) :: fs.files }

/-- The content of the file at `p`, when one exists. -/
def fileContent (fs : FS) (p : Str) : Option Str :=
  (fs.files.find? (fun kv => kv.1 == p)).map (fun kv => kv.2)

/-- Models `filepath.Join` of a directory and a file name (with the
`/` separator). -/
def joinPath (dir name : Str) : Str := dir ++ 47 :: name

/-- Errors surfaced by the operations: `ValidationError` or
`FileError{Op, Path}` (the wrapped I/O cause is outside the model). -/
inductive AppError where
  | validation (e : ValidationError)
  | file (op : Str) (path : Str)
deriving DecidableEq

/-- Embeds `ensureTemplatesDirectory` (main.go:178-195): when the
configured templates directory does not exist, create it and seed
`default.yaml` with `defaultTemplateContent`; otherwise do nothing. -/
def ensureTemplatesDirectory (cfg : Config) (fs : FS) : FS :=
  if pathExists fs cfg.TemplatesDir then fs
  else
    writeFile (mkdir fs cfg.TemplatesDir)
      (joinPath cfg.TemplatesDir (toL "default.yaml")) defaultTemplateContent

/-- Embeds `ensureNotesDirectory` (main.go:197-210): no notes
directory configured means no action; otherwise create it when
missing. -/
def ensureNotesDirectory (cfg : Config) (fs : FS) : FS :=
  if cfg.NotesDir = [] then fs
  else if pathExists fs cfg.NotesDir then fs
  else mkdir fs cfg.NotesDir

/-- The template file path written by `createTemplate` and read by
`loadTemplate`: `<templatesDir>/<sanitized-name>.yaml`. -/
def templateFileName (cfg : Config) (name : Str) : Str :=
  joinPath cfg.TemplatesDir (sanitizeFileName name ++ toL ".yaml")

/-- Embeds `createTemplate` (main.go:212-229): validate the raw name,
bootstrap the templates directory, then write the default template
content under the sanitized name.  The returned pair is the
filesystem after the operation and the error, if any. -/
def createTemplate (cfg : Config) (name : Str) (fs : FS) : FS × Option AppError :=
  match validateFileName name with
  | some e => (fs, some (AppError.validation e))
  | none =>
    let fs1 := ensureTemplatesDirectory cfg fs
    let filename := templateFileName cfg name
    (writeFile fs1 filename defaultTemplateContent, none)

/-- Embeds `loadTemplate` (main.go:295-315): bootstrap the templates
directory, read `<templatesDir>/<sanitized-name>.yaml`, and parse it
with the (external) YAML parser `parse`. -/
def loadTemplate (cfg : Config) (parse : Str → Option Template)
    (templateName : Str) (fs : FS) : FS × Except AppError Template :=
  let fs1 := ensureTemplatesDirectory cfg fs
  let filename := templateFileName cfg templateName
  match fileContent fs1 filename with
  | none => (fs1, Except.error (AppError.file (toL "read") filename))
  | some data =>
    match parse data with
    | none => (fs1, Except.error (AppError.file (toL "parse") filename))
    | some t => (fs1, Except.ok t)

/-- The markdown file path written by `saveMarkdownFile`
(main.go:329-339): `<sanitized-name>.md`, joined onto the notes
directory when one is configured. -/
def mdName (cfg : Config) (name : Str) : Str :=
  let filename := sanitizeFileName name ++ toL ".md"
  if cfg.NotesDir = [] then filename else joinPath cfg.NotesDir filename

/-- Embeds `saveMarkdownFile` (main.go:329-339). -/
def saveMarkdownFile (cfg : Config) (name content : Str) (fs : FS) : FS :=
  writeFile fs (mdName cfg name) content

/-- Embeds `createNote` (main.go:261-293): default the name to the
title, validate name then title, bootstrap the notes directory, load
the template, render, and save.  The returned pair is the filesystem
after the operation and the error, if any. -/
def createNote (cfg : Config) (parse : Str → Option Template)
    (noteName noteTitle templateName : Str) (noteTags : List Str)
    (now : DateTime) (fs : FS) : FS × Option AppError :=
  let name := if noteName = [] then noteTitle else noteName
  match validateFileName name with
  | some e => (fs, some (AppError.validation e))
  | none =>
    match validateTitle noteTitle with
    | some e => (fs, some (AppError.validation e))
    | none =>
      let fs1 := ensureNotesDirectory cfg fs
      match loadTemplate cfg parse templateName fs1 with
      | (fs2, Except.error e) => (fs2, some e)
      | (fs2, Except.ok template) =>
        let content := generateContent template noteTitle noteTags now
        (saveMarkdownFile cfg name content fs2, none)

/-! ## Lemmas about the string primitives -/

/-- A list maps to itself when the function fixes each member. -/
theorem mapFix {f : Nat → Nat} : ∀ {l : Str}, (∀ c ∈ l, f c = c) → l.map f = l := by
  intro l
  induction l with
  | nil => intro _; rfl
  | cons c cs ih =>
    intro h
    simp only [List.map_cons]
    rw [h c (by simp), ih (fun d hd => h d (by simp [hd]))]

/-- With a non-empty pattern absent from `s`, the replacement core
returns `s` unchanged. -/
theorem replaceAllCore_of_not_contains (p : Nat) (ps rep : Str) :
    ∀ (f : Nat) (s : Str), s.length ≤ f → containsSub s (p :: ps) = false →
      replaceAllCore f p ps rep s = s := by
  intro f
  induction f with
  | zero =>
    intro s hs _
    cases s with
    | nil => rfl
    | cons c cs => simp at hs
  | succ f ih =>
    intro s hs hc
    cases s with
    | nil => rfl
    | cons c cs =>
      rw [containsSub] at hc
      rw [Bool.or_eq_false_iff] at hc
      simp only [replaceAllCore, hc.1, Bool.false_eq_true, if_false]
      rw [ih cs (by simpa using Nat.le_of_succ_le_succ hs) hc.2]

/-- `strings.ReplaceAll` with a non-empty pattern absent from `s`
returns `s` unchanged. -/
theorem replaceAll_of_not_contains (s rep : Str) (p : Nat) (ps : Str)
    (hc : containsSub s (p :: ps) = false) : replaceAll s (p :: ps) rep = s :=
  replaceAllCore_of_not_contains p ps rep s.length s (Nat.le_refl _) hc

/-- Single-character replacement is a pointwise map. -/
theorem replaceAllCore_single (a b : Nat) :
    ∀ (f : Nat) (s : Str), s.length ≤ f →
      replaceAllCore f a [] [b] s = s.map (fun c => if c == a then b else c) := by
  intro f
  induction f with
  | zero =>
    intro s hs
    cases s with
    | nil => rfl
    | cons c cs => simp at hs
  | succ f ih =>
    intro s hs
    cases s with
    | nil => rfl
    | cons c cs =>
      have hcs : cs.length ≤ f := by simpa using Nat.le_of_succ_le_succ hs
      simp only [replaceAllCore, isPre, Bool.and_true, List.map_cons]
      by_cases h : a = c
      · subst h
        simp only [beq_self_eq_true, if_true, List.length_nil, List.drop_zero]
        rw [ih cs hcs]
        simp
      · have h1 : (a == c) = false := by simpa using h
        have h2 : (c == a) = false := by simpa using fun hh => h hh.symm
        simp only [h1, Bool.false_eq_true, if_false, h2]
        rw [ih cs hcs]

/-- `strings.ReplaceAll s " " "_"` is the pointwise
space-to-underscore map. -/
theorem replaceAll_space_underscore (s : Str) :
    replaceAll s [32] [95] = s.map (fun c => if c == 32 then 95 else c) :=
  replaceAllCore_single 32 95 s.length s (Nat.le_refl _)

/-! ## Lemmas about the sanitizer's character classes -/

/-- Lowering a kept character lands in the lower-case residue class. -/
theorem toLowerGo_mem_lower {n : Nat} (h : isFileChar n = true) :
    isLowerFileChar (toLowerGo n) = true := by
  unfold isFileChar at h
  unfold toLowerGo isLowerFileChar
  simp only [Bool.or_eq_true, decide_eq_true_eq, beq_iff_eq] at h ⊢
  split <;> omega

/-- Lower-case residue characters are fixed by the ASCII lowering. -/
theorem toLowerGo_fix {n : Nat} (h : isLowerFileChar n = true) : toLowerGo n = n := by
  unfold isLowerFileChar at h
  unfold toLowerGo
  simp only [Bool.or_eq_true, decide_eq_true_eq, beq_iff_eq] at h
  rw [if_neg]
  omega

/-- Lower-case residue characters are kept characters and not spaces. -/
theorem lower_isFileChar {n : Nat} (h : isLowerFileChar n = true) :
    isFileChar n = true ∧ n ≠ 32 := by
  unfold isLowerFileChar at h
  unfold isFileChar
  simp only [Bool.or_eq_true, decide_eq_true_eq, beq_iff_eq] at h ⊢
  omega

/-- The sanitizer exactly as worded by the spec (§4.1): (a) replace
spaces with underscores, (b) remove every character outside
`[A-Za-z0-9_-]`, (c) lower-case, (d) truncate to at most 255
characters. -/
def sanitizeSpec (name : Str) : Str :=
  (((name.map (fun c => if c == 32 then 95 else c)).filter isFileChar).map
    toLowerGo).take 255

/-- The source sanitizer agrees with the spec's four-step wording. -/
theorem sanitizeFileName_eq_sanitizeSpec (name : Str) :
    sanitizeFileName name = sanitizeSpec name := by
  simp only [sanitizeFileName, sanitizeSpec]
  rw [replaceAll_space_underscore]
  split
  · rfl
  · rw [List.take_of_length_le (by omega)]

/-- Every character of a sanitized name is in `[a-z0-9_-]`. -/
theorem sanitizeFileName_chars (name : Str) :
    ∀ c ∈ sanitizeFileName name, isLowerFileChar c = true := by
  intro c hc
  rw [sanitizeFileName_eq_sanitizeSpec] at hc
  unfold sanitizeSpec at hc
  have hc' := List.mem_of_mem_take hc
  obtain ⟨d, hd, rfl⟩ := List.mem_map.mp hc'
  exact toLowerGo_mem_lower (List.mem_filter.mp hd).2

/-- A sanitized name has at most 255 characters. -/
theorem sanitizeFileName_length (name : Str) :
    (sanitizeFileName name).length ≤ 255 := by
  rw [sanitizeFileName_eq_sanitizeSpec]
  unfold sanitizeSpec
  simp [List.length_take]

/-! ## Whitespace lemmas -/

/-- Dropping a satisfied prefix does not change whether every element
satisfies the predicate. -/
theorem all_dropWhile_iff (p : Nat → Bool) : ∀ (l : Str),
    (∀ c ∈ l.dropWhile p, p c = true) ↔ (∀ c ∈ l, p c = true) := by
  intro l
  induction l with
  | nil => simp
  | cons c cs ih =>
    by_cases h : p c = true
    · simp only [List.dropWhile_cons, h, if_true]
      rw [ih]
      simp [h]
    · simp [List.dropWhile_cons, h]

/-- A string trims to empty exactly when all of its characters are
whitespace. -/
theorem trimSpace_eq_nil_iff (t : Str) :
    trimSpace t = [] ↔ ∀ c ∈ t, isSpaceGo c = true := by
  unfold trimSpace
  rw [List.reverse_eq_nil_iff, List.dropWhile_eq_nil_iff]
  constructor
  · intro h
    rw [← all_dropWhile_iff isSpaceGo t]
    intro c hc
    exact h c (List.mem_reverse.mpr hc)
  · intro h c hc
    exact (all_dropWhile_iff isSpaceGo t).mpr h c (List.mem_reverse.mp hc)

/-! ## Claim theorems: the sanitizer -/

/-- C2: `sanitizeFileName` performs, in order, space-to-underscore
replacement, removal of characters outside `[A-Za-z0-9_-]`,
lower-casing, and truncation to 255 characters (`sanitizeSpec`); it
is total by construction, its output has only `[a-z0-9_-]`
characters and length at most 255, and an input whose characters are
all invalid (neither a space nor a kept character) yields the empty
string. -/
theorem sanitizeFileName_spec (name : Str) :
    sanitizeFileName name = sanitizeSpec name ∧
    (sanitizeFileName name).length ≤ 255 ∧
    (∀ c ∈ sanitizeFileName name, isLowerFileChar c = true) ∧
    ((∀ c ∈ name, c ≠ 32 ∧ isFileChar c = false) → sanitizeFileName name = []) := by
  refine ⟨sanitizeFileName_eq_sanitizeSpec name, sanitizeFileName_length name,
    sanitizeFileName_chars name, ?_⟩
  intro h
  rw [sanitizeFileName_eq_sanitizeSpec]
  unfold sanitizeSpec
  have e1 : name.map (fun c => if c == 32 then 95 else c) = name :=
    mapFix (fun c hc => by rw [if_neg]; simpa using (h c hc).1)
  rw [e1, List.filter_eq_nil_iff.mpr (fun a ha => by simp [(h a ha).2])]
  rfl

/-- Witness for C2 at the all-invalid input `"!!!"`. -/
theorem sanitizeFileName_spec_witness : sanitizeFileName (toL "!!!") = [] :=
  (sanitizeFileName_spec (toL "!!!")).2.2.2 (by decide)

/-- C3: sanitization is idempotent. -/
theorem sanitizeFileName_idem (s : Str) :
    sanitizeFileName (sanitizeFileName s) = sanitizeFileName s := by
  have hch := sanitizeFileName_chars s
  have hlen := sanitizeFileName_length s
  rw [sanitizeFileName_eq_sanitizeSpec (sanitizeFileName s)]
  unfold sanitizeSpec
  have e1 : (sanitizeFileName s).map (fun c => if c == 32 then 95 else c) =
      sanitizeFileName s :=
    mapFix (fun c hc => by
      rw [if_neg]; simpa using (lower_isFileChar (hch c hc)).2)
  rw [e1, List.filter_eq_self.mpr (fun a ha => (lower_isFileChar (hch a ha)).1)]
  rw [mapFix (fun c hc => toLowerGo_fix (hch c hc))]
  exact List.take_of_length_le hlen

/-! ## Claim theorems: the validators -/

/-- C6 counterexample: a title of 101 spaces consists only of
whitespace, yet `validateTitle` reports the too-long error, not the
empty/whitespace kind — the length check runs before the
whitespace-only check. -/
theorem validateTitle_whitespace_claim_false :
    (List.replicate 101 32).all isSpaceGo = true ∧
    trimSpace (List.replicate 101 32) = [] ∧
    validateTitle (List.replicate 101 32) = some titleTooLongErr ∧
    ¬ isEmptyWhitespaceKind (validateTitle (List.replicate 101 32)) := by
  refine ⟨by decide, by decide, by decide, ?_⟩
  simp only [isEmptyWhitespaceKind]
  decide

/-- C6 (amended): `validateTitle` fails with the empty/whitespace
kind exactly when the title is empty, or is whitespace-only with
length at most 100; fails with the too-long error exactly when it is
non-empty of length exceeding 100; and succeeds exactly when it is
not whitespace-only and has length at most 100. -/
theorem validateTitle_characterization (t : Str) :
    (validateTitle t = none ↔
      (¬ (∀ c ∈ t, isSpaceGo c = true) ∧ t.length ≤ 100)) ∧
    (isEmptyWhitespaceKind (validateTitle t) ↔
      (t = [] ∨ ((∀ c ∈ t, isSpaceGo c = true) ∧ t.length ≤ 100))) ∧
    (validateTitle t = some titleTooLongErr ↔ (t ≠ [] ∧ 100 < t.length)) := by
  have hts := trimSpace_eq_nil_iff t
  unfold validateTitle isEmptyWhitespaceKind
  split_ifs with h1 h2 h3
  · subst h1
    refine ⟨by simp, by simp, by decide⟩
  · refine ⟨?_, ?_, ?_⟩
    · constructor
      · intro h
        exact absurd h (by simp)
      · intro h
        exact absurd h.2 (by omega)
    · constructor
      · intro h
        rcases h with h | h <;>
          exact absurd (Option.some_injective _ h) (by decide)
      · intro h
        rcases h with h | h
        · exact absurd h h1
        · exact absurd h.2 (by omega)
    · exact ⟨fun _ => ⟨h1, h2⟩, fun _ => rfl⟩
  · refine ⟨?_, ?_, ?_⟩
    · constructor
      · intro h
        exact absurd h (by simp)
      · intro h
        exact absurd (hts.mp h3) h.1
    · constructor
      · intro _
        exact Or.inr ⟨hts.mp h3, by omega⟩
      · intro _
        exact Or.inr rfl
    · constructor
      · intro h
        exact absurd (Option.some_injective _ h) (by decide)
      · intro h
        exact absurd h.2 (by omega)
  · refine ⟨?_, ?_, ?_⟩
    · exact ⟨fun _ => ⟨fun hall => h3 (hts.mpr hall), by omega⟩, fun _ => rfl⟩
    · constructor
      · intro h
        rcases h with h | h <;> exact absurd h (by simp)
      · intro h
        rcases h with h | h
        · exact absurd h h1
        · exact absurd (hts.mpr h.1) h3
    · constructor
      · intro h
        exact absurd h (by simp)
      · intro h
        exact absurd h.2 (by omega)

/-- C7: `validateFileName` fails with `EmptyName` exactly on the
empty input, with `NameTooLong` exactly when the length exceeds 255,
with `InvalidCharacters` exactly when the raw name contains one of
`/ \ : * ? " < > |` (and is not already rejected by the earlier,
shorter checks), and succeeds on every other name. -/
theorem validateFileName_spec (name : Str) :
    (validateFileName name = some emptyNameErr ↔ name = []) ∧
    (validateFileName name = some nameTooLongErr ↔ 255 < name.length) ∧
    (validateFileName name = some invalidNameErr ↔
      (hasForbiddenChar name = true ∧ name.length ≤ 255)) ∧
    (validateFileName name = none ↔
      (name ≠ [] ∧ name.length ≤ 255 ∧ hasForbiddenChar name = false)) := by
  unfold validateFileName
  split_ifs with h1 h2 h3
  · subst h1
    refine ⟨by simp, ?_, ?_, by simp⟩
    · constructor
      · intro h
        exact absurd (Option.some_injective _ h) (by decide)
      · intro h
        exact absurd h (by simp)
    · constructor
      · intro h
        exact absurd (Option.some_injective _ h) (by decide)
      · intro h
        exact absurd h.1 (by decide)
  · refine ⟨?_, ⟨fun _ => h2, fun _ => rfl⟩, ?_, ?_⟩
    · constructor
      · intro h
        exact absurd (Option.some_injective _ h) (by decide)
      · intro h
        exact absurd h h1
    · constructor
      · intro h
        exact absurd (Option.some_injective _ h) (by decide)
      · intro h
        exact absurd h.2 (by omega)
    · constructor
      · intro h
        exact absurd h (by simp)
      · intro h
        exact absurd h.2.1 (by omega)
  · refine ⟨?_, ?_, ⟨fun _ => ⟨h3, by omega⟩, fun _ => rfl⟩, ?_⟩
    · constructor
      · intro h
        exact absurd (Option.some_injective _ h) (by decide)
      · intro h
        exact absurd h h1
    · constructor
      · intro h
        exact absurd (Option.some_injective _ h) (by decide)
      · intro h
        exact absurd h (by omega)
    · constructor
      · intro h
        exact absurd h (by simp)
      · intro h
        rw [h3] at h
        exact absurd h.2.2 (by simp)
  · have h3' : hasForbiddenChar name = false := by simpa using h3
    refine ⟨?_, ?_, ?_, ?_⟩
    · exact ⟨fun h => absurd h (by simp), fun h => absurd h h1⟩
    · exact ⟨fun h => absurd h (by simp), fun h => absurd h (by omega)⟩
    · constructor
      · intro h
        exact absurd h (by simp)
      · intro h
        rw [h3'] at h
        exact absurd h.1 (by simp)
    · exact ⟨fun _ => ⟨h1, by omega, h3'⟩, fun _ => rfl⟩

/-! ## Claim theorems: the tag scanner -/

/-- C8: `extractTags` returns, for the first line (splitting on
newlines) that begins with the literal `Tags:`, the comma-split,
whitespace-trimmed pieces of the line's remainder; the empty list
when no such line exists; and in particular the line
`Tags: foo, bar ,baz` yields `["foo","bar","baz"]`. -/
theorem extractTags_spec :
    (∀ content : Str,
      extractTags content =
        match (splitOnChar 10 content).find? (fun l => isPre tagsMarker l) with
        | some l => (splitOnChar 44 (trimLead tagsMarker l)).map trimSpace
        | none => []) ∧
    extractTags (toL "# T\nTags: foo, bar ,baz\nend") =
      [toL "foo", toL "bar", toL "baz"] ∧
    extractTags (toL "no marker line here") = [] := by
  refine ⟨?_, by decide, by decide⟩
  intro content
  unfold extractTags
  generalize splitOnChar 10 content = ls
  induction ls with
  | nil => rfl
  | cons l ls ih =>
    by_cases h : isPre tagsMarker l
    · simp [findTagsLine, h, List.find?_cons, parseTagsLine]
    · have h' : isPre tagsMarker l = false := by simpa using h
      simp [findTagsLine, h', List.find?_cons, ih]

/-! ## Claim theorems: the content renderer -/

/-- `strings.ReplaceAll` with a non-empty pattern that does not occur
in `s` returns `s` unchanged. -/
theorem replaceAll_no_occurrence (s pat rep : Str) (hp : pat ≠ [])
    (hc : containsSub s pat = false) : replaceAll s pat rep = s := by
  cases pat with
  | nil => exact absurd rfl hp
  | cons p ps => exact replaceAll_of_not_contains s rep p ps hc

/-- C1: `generateContent` is exactly the spec's rendering
(`specRender`): verbatim sequential replacement of every occurrence
of `{{TITLE}}`, `{{DATE}}`, `{{TIME}}`, `{{TAGS}}` by the title, the
`YYYY-MM-DD` date, the `HH:MM:SS` time (both from the single captured
instant `now`) and the comma-and-space-joined tags; a content free of
all four tokens is returned untouched; and a concrete rendering shows
every occurrence of every token replaced, the unrecognized token
`{{FOO}}` left intact, zero-padded date/time from one instant, and
the empty tag list joined to the empty string. -/
theorem generateContent_spec :
    (∀ (template : Template) (title : Str) (tags : List Str) (now : DateTime),
      generateContent template title tags now =
        specRender template.Content title tags now) ∧
    (∀ (template : Template) (title : Str) (tags : List Str) (now : DateTime),
      containsSub template.Content titleTok = false →
      containsSub template.Content dateTok = false →
      containsSub template.Content timeTok = false →
      containsSub template.Content tagsTok = false →
      generateContent template title tags now = template.Content) ∧
    generateContent
        ⟨toL "# \x7b\x7bTITLE\x7d\x7d\n\x7b\x7bTITLE\x7d\x7d again\nDate: \x7b\x7bDATE\x7d\x7d\nTime: \x7b\x7bTIME\x7d\x7d\nTags: \x7b\x7bTAGS\x7d\x7d\nKeep \x7b\x7bFOO\x7d\x7d", []⟩
        (toL "My Note") [toL "a", toL "b"] ⟨2024, 3, 7, 9, 5, 4⟩ =
      toL "# My Note\nMy Note again\nDate: 2024-03-07\nTime: 09:05:04\nTags: a, b\nKeep \x7b\x7bFOO\x7d\x7d" ∧
    generateContent ⟨toL "T: \x7b\x7bTAGS\x7d\x7d", []⟩ (toL "t") []
        ⟨2024, 1, 2, 3, 4, 5⟩ = toL "T: " := by
  refine ⟨fun _ _ _ _ => rfl, ?_, by decide, by decide⟩
  intro template title tags now h1 h2 h3 h4
  show specRender template.Content title tags now = template.Content
  unfold specRender
  rw [replaceAll_no_occurrence _ titleTok _ (by decide) h1]
  rw [replaceAll_no_occurrence _ dateTok _ (by decide) h2]
  rw [replaceAll_no_occurrence _ timeTok _ (by decide) h3]
  rw [replaceAll_no_occurrence _ tagsTok _ (by decide) h4]

/-- Witness for C1's untouched clause at a token-free content. -/
theorem generateContent_spec_witness :
    generateContent ⟨toL "plain text, no tokens", []⟩ (toL "t") []
      ⟨2024, 1, 2, 3, 4, 5⟩ = toL "plain text, no tokens" :=
  generateContent_spec.2.1 ⟨toL "plain text, no tokens", []⟩ (toL "t") []
    ⟨2024, 1, 2, 3, 4, 5⟩ (by decide) (by decide) (by decide) (by decide)

/-! ## Claim theorems: filesystem operations -/

/-- A freshly written file is found with its content. -/
theorem fileContent_writeFile (fs : FS) (p c : Str) :
    fileContent (writeFile fs p c) p = some c := by
  simp [fileContent, writeFile, List.find?]

/-- The directory just made exists. -/
theorem pathExists_writeFile_mkdir (fs : FS) (d p c : Str) :
    pathExists (writeFile (mkdir fs d) p c) d = true := by
  simp [pathExists, writeFile, mkdir]

/-- C5: in note creation and template creation, both validators run
before any filesystem interaction: whenever validation fails the
operation reports an error and leaves the filesystem exactly as it
was. -/
theorem validators_run_first (cfg : Config) (parse : Str → Option Template)
    (fs : FS) :
    (∀ name : Str, validateFileName name ≠ none →
      (createTemplate cfg name fs).1 = fs ∧
      (createTemplate cfg name fs).2 ≠ none) ∧
    (∀ (noteName noteTitle templateName : Str) (noteTags : List Str)
        (now : DateTime),
      (validateFileName (if noteName = [] then noteTitle else noteName) ≠ none ∨
        validateTitle noteTitle ≠ none) →
      (createNote cfg parse noteName noteTitle templateName noteTags now fs).1 = fs ∧
      (createNote cfg parse noteName noteTitle templateName noteTags now fs).2 ≠ none) := by
  constructor
  · intro name h
    unfold createTemplate
    cases hv : validateFileName name with
    | some e => simp [hv]
    | none => exact absurd hv h
  · intro noteName noteTitle templateName noteTags now h
    unfold createNote
    cases hv : validateFileName (if noteName = [] then noteTitle else noteName) with
    | some e => simp [hv]
    | none =>
      cases ht : validateTitle noteTitle with
      | some e => simp [hv, ht]
      | none =>
        rcases h with h | h
        · exact absurd hv h
        · exact absurd ht h

/-- Witness for C5: an invalid name (`a/b`, containing `/`) leaves
the filesystem untouched in both operations, and an
invalid (whitespace-only) title does so for note creation. -/
theorem validators_run_first_witness :
    ((createTemplate ⟨toL "templates", []⟩ (toL "a/b") ⟨[], []⟩).1 = ⟨[], []⟩ ∧
      (createTemplate ⟨toL "templates", []⟩ (toL "a/b") ⟨[], []⟩).2 ≠ none) ∧
    ((createNote ⟨toL "templates", []⟩ (fun _ => none) (toL "n") (toL "   ")
        (toL "default") [] ⟨2024, 1, 2, 3, 4, 5⟩ ⟨[], []⟩).1 = ⟨[], []⟩ ∧
      (createNote ⟨toL "templates", []⟩ (fun _ => none) (toL "n") (toL "   ")
        (toL "default") [] ⟨2024, 1, 2, 3, 4, 5⟩ ⟨[], []⟩).2 ≠ none) :=
  ⟨(validators_run_first ⟨toL "templates", []⟩ (fun _ => none) ⟨[], []⟩).1
      (toL "a/b") (by decide),
    (validators_run_first ⟨toL "templates", []⟩ (fun _ => none) ⟨[], []⟩).2
      (toL "n") (toL "   ") (toL "default") [] ⟨2024, 1, 2, 3, 4, 5⟩
      (Or.inr (by decide))⟩

/-- C4: a successful note creation writes the markdown file whose
name stem is `sanitizeFileName` of the explicit name when one is
given, and `sanitizeFileName` of the title otherwise (`mdName`
appends `.md` to exactly that stem). -/
theorem createNote_stem (cfg : Config) (parse : Str → Option Template)
    (noteName noteTitle templateName : Str) (noteTags : List Str)
    (now : DateTime) (fs : FS)
    (h : (createNote cfg parse noteName noteTitle templateName noteTags now fs).2 =
      none) :
    ∃ content : Str,
      fileContent
        (createNote cfg parse noteName noteTitle templateName noteTags now fs).1
        (mdName cfg (if noteName = [] then noteTitle else noteName)) =
        some content := by
  simp only [createNote] at h ⊢
  cases hv : validateFileName (if noteName = [] then noteTitle else noteName) with
  | some e => simp [hv] at h
  | none =>
    simp only [hv] at h ⊢
    cases ht : validateTitle noteTitle with
    | some e => simp [ht] at h
    | none =>
      simp only [ht] at h ⊢
      cases hl : loadTemplate cfg parse templateName (ensureNotesDirectory cfg fs) with
      | mk fs2 res =>
        simp only [hl] at h ⊢
        cases res with
        | error e => simp at h
        | ok template =>
          simp only [saveMarkdownFile]
          exact ⟨generateContent template noteTitle noteTags now,
            fileContent_writeFile fs2 _ _⟩

/-- Witness for C4 at a concrete successful run. -/
theorem createNote_stem_witness :
    ∃ content : Str,
      fileContent
        (createNote ⟨toL "templates", []⟩ (fun _ => some ⟨toL "x", []⟩)
          (toL "note") (toL "T") (toL "default") [] ⟨2024, 1, 2, 3, 4, 5⟩
          ⟨[], []⟩).1
        (mdName ⟨toL "templates", []⟩ (toL "note")) = some content := by
  have h := createNote_stem ⟨toL "templates", []⟩ (fun _ => some ⟨toL "x", []⟩)
    (toL "note") (toL "T") (toL "default") [] ⟨2024, 1, 2, 3, 4, 5⟩ ⟨[], []⟩
    (by decide)
  rw [if_neg (by decide)] at h
  exact h

/-- C9: the templates-directory bootstrap is idempotent: with the
directory (or a file of its name) present it changes nothing; when
absent it creates the directory and seeds `default.yaml` with the
default template content, which contains all four placeholder
tokens; and a repeated call is always a no-op. -/
theorem ensureTemplatesDirectory_idem (cfg : Config) (fs : FS) :
    (pathExists fs cfg.TemplatesDir = true → ensureTemplatesDirectory cfg fs = fs) ∧
    (pathExists fs cfg.TemplatesDir = false →
      pathExists (ensureTemplatesDirectory cfg fs) cfg.TemplatesDir = true ∧
      fileContent (ensureTemplatesDirectory cfg fs)
        (joinPath cfg.TemplatesDir (toL "default.yaml")) =
        some defaultTemplateContent ∧
      containsSub defaultTemplateContent titleTok = true ∧
      containsSub defaultTemplateContent dateTok = true ∧
      containsSub defaultTemplateContent timeTok = true ∧
      containsSub defaultTemplateContent tagsTok = true) ∧
    ensureTemplatesDirectory cfg (ensureTemplatesDirectory cfg fs) =
      ensureTemplatesDirectory cfg fs := by
  by_cases h : pathExists fs cfg.TemplatesDir
  · have e : ensureTemplatesDirectory cfg fs = fs := by
      unfold ensureTemplatesDirectory
      rw [if_pos h]
    refine ⟨fun _ => e, ?_, by rw [e, e]⟩
    intro h'
    rw [h'] at h
    exact absurd h (by simp)
  · have h' : pathExists fs cfg.TemplatesDir = false := by simpa using h
    have e : ensureTemplatesDirectory cfg fs =
        writeFile (mkdir fs cfg.TemplatesDir)
          (joinPath cfg.TemplatesDir (toL "default.yaml")) defaultTemplateContent := by
      unfold ensureTemplatesDirectory
      rw [if_neg h]
    refine ⟨fun hc => absurd hc (by simp [h']), ?_, ?_⟩
    · intro _
      refine ⟨by rw [e]; exact pathExists_writeFile_mkdir fs _ _ _,
        by rw [e]; exact fileContent_writeFile _ _ _,
        by decide, by decide, by decide, by decide⟩
    · rw [e]
      unfold ensureTemplatesDirectory
      rw [if_pos (pathExists_writeFile_mkdir fs _ _ _)]

/-- Witness for C9 on an empty filesystem. -/
theorem ensureTemplatesDirectory_idem_witness :
    pathExists (ensureTemplatesDirectory ⟨toL "templates", []⟩ ⟨[], []⟩)
      (toL "templates") = true ∧
    fileContent (ensureTemplatesDirectory ⟨toL "templates", []⟩ ⟨[], []⟩)
      (joinPath (toL "templates") (toL "default.yaml")) =
      some defaultTemplateContent ∧
    containsSub defaultTemplateContent titleTok = true ∧
    containsSub defaultTemplateContent dateTok = true ∧
    containsSub defaultTemplateContent timeTok = true ∧
    containsSub defaultTemplateContent tagsTok = true :=
  (ensureTemplatesDirectory_idem ⟨toL "templates", []⟩ ⟨[], []⟩).2.1 (by decide)

/-- C10: the name `"."` passes `validateFileName` (non-empty, short,
no forbidden character) yet sanitizes to the empty stem, so the note
file name collapses to `.md` and template creation writes
`templates/.yaml` — a file name that is just the extension. -/
theorem emptyStem_accepted :
    validateFileName (toL ".") = none ∧
    sanitizeFileName (toL ".") = [] ∧
    mdName ⟨toL "templates", []⟩ (toL ".") = toL ".md" ∧
    templateFileName ⟨toL "templates", []⟩ (toL ".") = toL "templates/.yaml" ∧
    (createTemplate ⟨toL "templates", []⟩ (toL ".") ⟨[], []⟩).2 = none ∧
    fileContent (createTemplate ⟨toL "templates", []⟩ (toL ".") ⟨[], []⟩).1
      (toL "templates/.yaml") = some defaultTemplateContent := by
  decide

end MdApp
